import Mathlib

/-!
Verification development for the secrets-management CLI module
(`src/bodywork/cli/secrets.py`).

Python strings are modelled as lists of characters (`Str := List Char`),
Python exceptions as `Except`, and Python dicts as insertion-ordered
association lists (`List (Str × Str)`), matching CPython's dict semantics:
inserting an existing key overwrites its value in place, a new key is
appended at the end.

The k8s collaborator module (`bodywork.k8s`, not part of this package's
sources) is abstracted as a record of query functions; mutating calls and
printed lines are recorded as an explicit effect trace, in the order the
source issues them.
-/

namespace BodyworkSecrets

/-- Python strings are modelled as lists of characters. -/
abbrev Str : Type := List Char

/-- Shorthand turning a Lean string literal into the `Str` model. -/
def str (s : String) : Str := s.toList

/-- The error message raised by `_parse_secret_key_value_pair`
(Python `ValueError`, the spec's MalformedPairError). -/
def error_msg : String := "secret key-value pair not in KEY=VALUE format"

/-- Python `kv_string.find("=")`: index of the first occurrence of `'='`,
`none` when absent (the source encodes absence as `-1`). -/
def findEq : Str → Option Nat
  | [] => none
  | c :: cs => if c = '=' then some 0 else (findEq cs).map (· + 1)

/-- Embedding of `_parse_secret_key_value_pair` (secrets.py lines 26-43):
locate the first `=`, fail when it is absent or when the key
(everything before it) or the value (everything after it) is empty. -/
def _parse_secret_key_value_pair (kv_string : Str) : Except String (Str × Str) :=
  match findEq kv_string with
  | none => .error error_msg
  | some equals_sign =>
    let key := kv_string.take equals_sign
    if key.length = 0 then .error error_msg
    else
      let value := kv_string.drop (equals_sign + 1)
      if value.length = 0 then .error error_msg
      else .ok (key, value)

theorem findEq_eq_none_iff (s : Str) : findEq s = none ↔ '=' ∉ s := by
  induction s with
  | nil => simp [findEq]
  | cons c cs ih =>
    by_cases hc : c = '='
    · subst hc; simp [findEq]
    · rw [findEq, if_neg hc, Option.map_eq_none', ih]
      constructor
      · intro h hm
        rcases List.mem_cons.1 hm with h1 | h2
        · exact hc h1.symm
        · exact h h2
      · intro h hm
        exact h (List.mem_cons_of_mem _ hm)

theorem findEq_append (k v : Str) (hk : '=' ∉ k) :
    findEq (k ++ '=' :: v) = some k.length := by
  induction k with
  | nil => simp [findEq]
  | cons c cs ih =>
    have hc : ¬ c = '=' := fun h => hk (by simp [h])
    have hcs : '=' ∉ cs := fun h => hk (List.mem_cons_of_mem _ h)
    simp [findEq, hc, ih hcs]

theorem findEq_some_split (s : Str) (i : Nat) (h : findEq s = some i) :
    ∃ k v, s = k ++ '=' :: v ∧ '=' ∉ k ∧ k.length = i := by
  induction s generalizing i with
  | nil => simp [findEq] at h
  | cons c cs ih =>
    by_cases hc : c = '='
    · subst hc
      simp [findEq] at h
      exact ⟨[], cs, by simp, by simp, by simp [← h]⟩
    · rw [findEq, if_neg hc, Option.map_eq_some'] at h
      obtain ⟨j, hj, hji⟩ := h
      obtain ⟨k, v, rfl, hk, rfl⟩ := ih j hj
      refine ⟨c :: k, v, rfl, ?_, by simpa using hji⟩
      intro hm
      rcases List.mem_cons.1 hm with h1 | h2
      · exact hc h1.symm
      · exact hk h2

theorem take_split (k v : Str) (c : Char) : (k ++ c :: v).take k.length = k := by
  simp

theorem drop_split (k v : Str) (c : Char) : (k ++ c :: v).drop (k.length + 1) = v := by
  have h : k ++ c :: v = (k ++ [c]) ++ v := by simp
  have hl : (k ++ [c]).length = k.length + 1 := by simp
  rw [h, ← hl, List.drop_left]

/-- Reduction of the parser once the position of the first `=` is known. -/
theorem parsePair_eq (s : Str) (i : Nat) (h : findEq s = some i) :
    _parse_secret_key_value_pair s =
      if (s.take i).length = 0 then .error error_msg
      else if (s.drop (i + 1)).length = 0 then .error error_msg
      else .ok (s.take i, s.drop (i + 1)) := by
  unfold _parse_secret_key_value_pair
  rw [h]

/-- Reduction of the parser when the input has no `=` at all. -/
theorem parsePair_eq_none (s : Str) (h : findEq s = none) :
    _parse_secret_key_value_pair s = .error error_msg := by
  unfold _parse_secret_key_value_pair
  rw [h]

/-- Characterisation of successful parses: the result is exactly the split
of the input at its first `=`, with both sides non-empty. -/
theorem parsePair_ok_iff (s k v : Str) :
    _parse_secret_key_value_pair s = .ok (k, v) ↔
      (s = k ++ '=' :: v ∧ '=' ∉ k ∧ k ≠ [] ∧ v ≠ []) := by
  constructor
  · intro h
    cases hf : findEq s with
    | none => rw [parsePair_eq_none _ hf] at h; exact absurd h (by simp)
    | some i =>
      obtain ⟨k0, v0, rfl, hk0, hlen⟩ := findEq_some_split _ _ hf
      subst hlen
      rw [parsePair_eq _ _ hf, take_split, drop_split] at h
      by_cases h1 : k0.length = 0
      · rw [if_pos h1] at h; exact absurd h (by simp)
      · rw [if_neg h1] at h
        by_cases h2 : v0.length = 0
        · rw [if_pos h2] at h; exact absurd h (by simp)
        · rw [if_neg h2] at h
          simp only [Except.ok.injEq, Prod.mk.injEq] at h
          obtain ⟨rfl, rfl⟩ := h
          exact ⟨rfl, hk0, by simpa using h1, by simpa using h2⟩
  · rintro ⟨rfl, hk, hknil, hvnil⟩
    rw [parsePair_eq _ _ (findEq_append k v hk), take_split, drop_split,
      if_neg (by simpa using hknil), if_neg (by simpa using hvnil)]

/-- A parse fails exactly when no decomposition at a first `=` with
non-empty sides exists. -/
theorem parsePair_error_iff (s : Str) :
    (∃ e, _parse_secret_key_value_pair s = .error e) ↔
      ¬ ∃ k v, s = k ++ '=' :: v ∧ '=' ∉ k ∧ k ≠ [] ∧ v ≠ [] := by
  constructor
  · rintro ⟨e, he⟩ ⟨k, v, hs, hk, hknil, hvnil⟩
    have := (parsePair_ok_iff s k v).2 ⟨hs, hk, hknil, hvnil⟩
    rw [this] at he
    exact absurd he (by simp)
  · intro hno
    cases hp : _parse_secret_key_value_pair s with
    | error e => exact ⟨e, rfl⟩
    | ok p =>
      obtain ⟨k, v⟩ := p
      exact absurd ⟨k, v, (parsePair_ok_iff s k v).1 hp⟩ hno

/-- Python dict insertion on an insertion-ordered association list:
overwrite the value in place when the key is already present, append a new
entry at the end otherwise. -/
def insertPair (m : List (Str × Str)) (k v : Str) : List (Str × Str) :=
  match m with
  | [] => [(k, v)]
  | p :: ps => if p.1 = k then (k, v) :: ps else p :: insertPair ps k v

/-- Python dict subscript / key search on an association list. -/
def dictLookup {α : Type} (m : List (Str × α)) (k : Str) : Option α :=
  match m with
  | [] => none
  | p :: ps => if p.1 = k then some p.2 else dictLookup ps k

/-- First-some choice on options (shape of repeated dict insertion). -/
def optOr {α : Type} : Option α → Option α → Option α
  | some v, _ => some v
  | none, o => o

/-- Left fold of dict insertions, the shape of Python `dict(iterable)`. -/
def insertAll (m : List (Str × Str)) (ps : List (Str × Str)) : List (Str × Str) :=
  ps.foldl (fun acc p => insertPair acc p.1 p.2) m

/-- Helper for `parse_cli_secrets_strings`: Python `dict(generator)`
consumes the generator left to right, inserting each parsed pair; the
generator's `ValueError` propagates out of `dict` unchanged. -/
def buildDict (m : List (Str × Str)) : List Str → Except String (List (Str × Str))
  | [] => .ok m
  | s :: rest =>
    match _parse_secret_key_value_pair s with
    | .error e => .error e
    | .ok (k, v) => buildDict (insertPair m k v) rest

/-- Embedding of `parse_cli_secrets_strings` (secrets.py lines 46-56). -/
def parse_cli_secrets_strings (key_value_strings : List Str) :
    Except String (List (Str × Str)) :=
  buildDict [] key_value_strings

/-- The successfully parsed pairs of a list of raw strings, in order. -/
def parsedPairs (ss : List Str) : List (Str × Str) :=
  ss.filterMap (fun s => (_parse_secret_key_value_pair s).toOption)

theorem dictLookup_insertPair (m : List (Str × Str)) (a b k : Str) :
    dictLookup (insertPair m a b) k = if a = k then some b else dictLookup m k := by
  induction m with
  | nil => simp [insertPair, dictLookup]
  | cons p ps ih =>
    by_cases hp : p.1 = a
    · by_cases hak : a = k
      · simp [insertPair, dictLookup, hp, hak]
      · have hpk : ¬ p.1 = k := by rw [hp]; exact hak
        simp [insertPair, dictLookup, hp, hak, hpk]
    · by_cases hpk : p.1 = k
      · have hak : ¬ a = k := fun h => hp (by rw [hpk, h])
        have hka : ¬ k = a := fun h => hak h.symm
        simp [insertPair, dictLookup, hp, hpk, hak, hka]
      · simp [insertPair, dictLookup, hp, hpk, ih]

theorem dictLookup_append {α : Type} (a b : List (Str × α)) (k : Str) :
    dictLookup (a ++ b) k = optOr (dictLookup a k) (dictLookup b k) := by
  induction a with
  | nil => simp [dictLookup, optOr]
  | cons p ps ih =>
    by_cases hp : p.1 = k
    · simp [dictLookup, hp, optOr]
    · simp [dictLookup, hp, ih]

theorem optOr_assoc {α : Type} (a b c : Option α) :
    optOr (optOr a b) c = optOr a (optOr b c) := by
  cases a <;> cases b <;> simp [optOr]

/-- A fold of dict insertions looks up as: the value of the LAST inserted
pair carrying that key, falling back to the initial dict. -/
theorem dictLookup_insertAll (ps : List (Str × Str)) (m : List (Str × Str)) (k : Str) :
    dictLookup (insertAll m ps) k =
      optOr (dictLookup ps.reverse k) (dictLookup m k) := by
  induction ps generalizing m with
  | nil => simp [insertAll, dictLookup, optOr]
  | cons p rest ih =>
    rw [insertAll, List.foldl_cons]
    have h1 : rest.foldl (fun acc q => insertPair acc q.1 q.2) (insertPair m p.1 p.2) =
        insertAll (insertPair m p.1 p.2) rest := rfl
    rw [h1, ih, List.reverse_cons, dictLookup_append, optOr_assoc]
    congr 1
    rw [dictLookup_insertPair]
    by_cases hp : p.1 = k
    · simp [dictLookup, hp, optOr]
    · simp [dictLookup, hp, optOr]

/-- When every raw string parses, `buildDict` succeeds and equals a fold of
dict insertions over the parsed pairs (no duplicate-key failure). -/
theorem buildDict_ok (ss : List Str) (m : List (Str × Str))
    (h : ∀ s ∈ ss, ∃ p, _parse_secret_key_value_pair s = .ok p) :
    buildDict m ss = .ok (insertAll m (parsedPairs ss)) := by
  induction ss generalizing m with
  | nil => simp [buildDict, parsedPairs, insertAll]
  | cons s rest ih =>
    obtain ⟨⟨k, v⟩, hp⟩ := h s (List.mem_cons_self s rest)
    rw [buildDict, hp]
    have hrest : ∀ t ∈ rest, ∃ p, _parse_secret_key_value_pair t = .ok p :=
      fun t ht => h t (List.mem_cons_of_mem _ ht)
    show buildDict (insertPair m k v) rest = _
    rw [ih _ hrest]
    have : parsedPairs (s :: rest) = (k, v) :: parsedPairs rest := by
      simp [parsedPairs, hp, Except.toOption]
    rw [this]
    rfl

/-- A secret record as seen through the k8s collaborator's listing: its
group label and its key-value payload. -/
structure SecretRecord where
  group : Str
  data : List (Str × Str)
deriving DecidableEq

/-- The k8s collaborator's query surface (`bodywork.k8s` is external to
this module), abstracted as pure response functions; existence checks and
listings read from it, mutations are recorded as effects. -/
structure Store where
  namespace_exists : Str → Bool
  secret_exists : Str → Str → Bool
  list_secrets : Str → Option Str → List (Str × SecretRecord)

/-- One observable action of a CLI operation, in program order: a printed
line or a call into the k8s collaborator. -/
inductive Effect where
  | printLine (line : Str)
  | createSecretCall (ns ident group : Str) (data : List (Str × Str))
  | updateSecretCall (ns ident : Str) (data : List (Str × Str))
  | deleteSecretCall (ns ident : Str)
  | listSecretsCall (ns : Str) (group : Option Str)
deriving DecidableEq

/-- Mutating store calls: createSecret, updateSecret, deleteSecret. -/
def Effect.isMutation : Effect → Bool
  | .createSecretCall .. => true
  | .updateSecretCall .. => true
  | .deleteSecretCall .. => true
  | _ => false

/-- Recogniser for createSecret calls. -/
def Effect.isCreateCall : Effect → Bool
  | .createSecretCall .. => true
  | _ => false

/-- Message `f"namespace={namespace} could not be found on k8s cluster"`. -/
def nsNotFoundMsg (ns : Str) : Str :=
  str "namespace=" ++ ns ++ str " could not be found on k8s cluster"

/-- Message `f"secret={secret_name} could not be found in group={group}"`. -/
def secretNotFoundMsg (secret_name group : Str) : Str :=
  str "secret=" ++ secret_name ++ str " could not be found in group=" ++ group

/-- Message `f"secret={secret_name} created in group={group}"`. -/
def createdMsg (secret_name group : Str) : Str :=
  str "secret=" ++ secret_name ++ str " created in group=" ++ group

/-- Message `f"secret={secret_name} in group={group} updated"`. -/
def updatedMsg (secret_name group : Str) : Str :=
  str "secret=" ++ secret_name ++ str " in group=" ++ group ++ str " updated"

/-- Message of the delete confirmation line. -/
def deletedMsg (secret_name group ns : Str) : Str :=
  str "secret=" ++ secret_name ++ str " in group=" ++ group ++
    str " deleted from namespace=" ++ ns

/-- The guidance line printed for a display request naming a secret
without naming its group. -/
def guidanceMsg : Str :=
  str "please specify which secrets group the secret belongs to."

/-- Header line `f"\n-- {secret_name}:"` printed before a secret's data. -/
def headerMsg (secret_name : Str) : Str :=
  str "\n-- " ++ secret_name ++ str ":"

/-- Message `f"cannot find secret={secret_name} in namespace={namespace}"`. -/
def cannotFindMsg (secret_name ns : Str) : Str :=
  str "cannot find secret=" ++ secret_name ++ str " in namespace=" ++ ns

/-- Embedding of `_create_complete_secret_name` (secrets.py lines
159-160): `f"{group}-{name}"`. -/
def _create_complete_secret_name (group name : Str) : Str :=
  group ++ str "-" ++ name

/-- Embedding of `create_secret` (secrets.py lines 59-79). -/
def create_secret (st : Store) (ns group secret_name : Str)
    (keys_and_values : List (Str × Str)) : List Effect :=
  if !st.namespace_exists ns then
    [.printLine (nsNotFoundMsg ns)]
  else
    [.createSecretCall ns (_create_complete_secret_name group secret_name)
       group keys_and_values,
     .printLine (createdMsg secret_name group)]

/-- Embedding of `update_secret` (secrets.py lines 82-103). -/
def update_secret (st : Store) (ns group secret_name : Str)
    (keys_and_values : List (Str × Str)) : List Effect :=
  if !st.namespace_exists ns then
    [.printLine (nsNotFoundMsg ns)]
  else if !st.secret_exists ns (_create_complete_secret_name group secret_name) then
    [.printLine (secretNotFoundMsg secret_name group)]
  else
    [.updateSecretCall ns (_create_complete_secret_name group secret_name)
       keys_and_values,
     .printLine (updatedMsg secret_name group)]

/-- Embedding of `delete_secret` (secrets.py lines 106-122). -/
def delete_secret (st : Store) (ns group secret_name : Str) : List Effect :=
  if !st.namespace_exists ns then
    [.printLine (nsNotFoundMsg ns)]
  else if !st.secret_exists ns (_create_complete_secret_name group secret_name) then
    [.printLine (secretNotFoundMsg secret_name group)]
  else
    [.deleteSecretCall ns (_create_complete_secret_name group secret_name),
     .printLine (deletedMsg secret_name group ns)]

/-- Python truthiness of an optional string: `None` and `""` are falsy. -/
def pyTruthy : Option Str → Bool
  | none => false
  | some s => !s.isEmpty

/-- Python f-string interpolation of an optional string: `typing.cast` is
a runtime no-op, so `f"{None}"` renders as the string `"None"`. -/
def pyOptStr : Option Str → Str
  | none => str "None"
  | some s => s

/-- Rendering of one payload pair: `f"-> {key}={value}".replace("\n", "")`.
Replacing the one-character pattern `"\n"` by the empty string removes
every newline character, i.e. it filters newlines out. -/
def renderLine (kv : Str × Str) : Str :=
  (str "-> " ++ kv.1 ++ str "=" ++ kv.2).filter (fun c => c != '\n')

/-- Embedding of `display_secrets` (secrets.py lines 125-156). The
`try/except KeyError` around the dict subscript is embedded by matching on
the `dictLookup` result; the header print sits before the subscript inside
the `try` block, so it is emitted in both outcomes. -/
def display_secrets (st : Store) (ns : Str)
    (group : Option Str) (secret_name : Option Str) : List Effect :=
  if !st.namespace_exists ns then
    [.printLine (nsNotFoundMsg ns)]
  else if pyTruthy secret_name && group.isNone then
    [.printLine guidanceMsg]
  else
    let secrets := st.list_secrets ns group
    Effect.listSecretsCall ns group ::
      match secret_name with
      | some nm =>
        match dictLookup secrets (_create_complete_secret_name (pyOptStr group) nm) with
        | some record =>
          Effect.printLine (headerMsg nm) ::
            record.data.map (fun kv => .printLine (renderLine kv))
        | none =>
          [Effect.printLine (headerMsg nm), .printLine (cannotFindMsg nm ns)]
      | none =>
        (secrets.map (fun p =>
          Effect.printLine (headerMsg p.1) ::
            p.2.data.map (fun kv => .printLine (renderLine kv)))).flatten

/-- Modelled from the spec: one record held by the k8s secret store
(`bodywork.k8s` is not part of this package's sources; spec §3/§6 say a
record carries the composed identifier, its group label and its payload,
keyed by namespace). -/
structure StoredSecret where
  ns : Str
  ident : Str
  group : Str
  data : List (Str × Str)
deriving DecidableEq

/-- Modelled from the spec: the state of the k8s secret store — the set of
namespaces and the stored records. -/
structure StoreState where
  namespaces : List Str
  stored : List StoredSecret
deriving DecidableEq

/-- Modelled from the spec: the query surface a store state presents
(§6: `namespaceExists`, `secretExists`, and `listSecrets` returning the
identifier-to-record mapping, optionally filtered by group). -/
def StoreState.toStore (st : StoreState) : Store where
  namespace_exists := fun n => decide (n ∈ st.namespaces)
  secret_exists := fun n i => st.stored.any (fun s => decide (s.ns = n ∧ s.ident = i))
  list_secrets := fun n g =>
    (st.stored.filter (fun s =>
        decide (s.ns = n) &&
          (match g with
           | none => true
           | some gg => decide (s.group = gg)))).map
      (fun s => (s.ident, SecretRecord.mk s.group s.data))

/-- Modelled from the spec: applying an emitted `createSecret` call to the
store state records the new secret (§6 `createSecret`, §3 lifecycle). -/
def StoreState.applyCreate (st : StoreState) (n i g : Str)
    (d : List (Str × Str)) : StoreState :=
  { st with stored := ⟨n, i, g, d⟩ :: st.stored }

/-- A store with no namespaces at all. -/
def emptyStore : Store where
  namespace_exists := fun _ => false
  secret_exists := fun _ _ => false
  list_secrets := fun _ _ => []

/-- A store with every namespace present and no secrets. -/
def nsOnlyStore : Store where
  namespace_exists := fun _ => true
  secret_exists := fun _ _ => false
  list_secrets := fun _ _ => []

/-- A store holding exactly one secret, `g-n`, whose payload value embeds
a newline. -/
def oneSecretStore : Store where
  namespace_exists := fun _ => true
  secret_exists := fun _ _ => true
  list_secrets := fun _ _ =>
    [(str "g-n", SecretRecord.mk (str "g") [(str "K", str "V\nW")])]

/-- C1: for every namespace, group, name and mapping, `create_secret`
with a missing namespace prints the namespace-not-found line and never
calls the store's createSecret; with an existing namespace it calls
createSecret exactly once, with the composed identifier
`group ++ "-" ++ name`, the group and the mapping. -/
theorem C1_create_secret (st : Store) (ns group secret_name : Str)
    (kv : List (Str × Str)) :
    (st.namespace_exists ns = false →
      create_secret st ns group secret_name kv = [.printLine (nsNotFoundMsg ns)] ∧
      (create_secret st ns group secret_name kv).countP
        (fun e => e.isCreateCall) = 0) ∧
    (st.namespace_exists ns = true →
      create_secret st ns group secret_name kv =
        [.createSecretCall ns (group ++ str "-" ++ secret_name) group kv,
         .printLine (createdMsg secret_name group)] ∧
      (create_secret st ns group secret_name kv).countP
        (fun e => e.isCreateCall) = 1) := by
  constructor
  · intro h
    simp [create_secret, h, Effect.isCreateCall]
  · intro h
    simp [create_secret, h, _create_complete_secret_name, Effect.isCreateCall,
      List.countP_cons]

/-- Witness for C1 at concrete stores and inputs, both branches. -/
theorem C1_create_secret_witness :
    (create_secret nsOnlyStore (str "ns") (str "g") (str "n")
        [(str "K", str "V")] =
      [.createSecretCall (str "ns") (str "g" ++ str "-" ++ str "n") (str "g")
         [(str "K", str "V")],
       .printLine (createdMsg (str "n") (str "g"))] ∧
      (create_secret nsOnlyStore (str "ns") (str "g") (str "n")
        [(str "K", str "V")]).countP (fun e => e.isCreateCall) = 1) ∧
    (create_secret emptyStore (str "ns") (str "g") (str "n")
        [(str "K", str "V")] =
      [.printLine (nsNotFoundMsg (str "ns"))] ∧
      (create_secret emptyStore (str "ns") (str "g") (str "n")
        [(str "K", str "V")]).countP (fun e => e.isCreateCall) = 0) :=
  ⟨(C1_create_secret nsOnlyStore (str "ns") (str "g") (str "n")
      [(str "K", str "V")]).2 rfl,
   (C1_create_secret emptyStore (str "ns") (str "g") (str "n")
      [(str "K", str "V")]).1 rfl⟩

/-- C2: update and delete check namespace existence first, then secret
existence under the composed identifier; when the namespace exists but the
secret does not, each prints the secret-not-found line and issues no
mutating store call. -/
theorem C2_update_delete_guard (st : Store) (ns group secret_name : Str)
    (kv : List (Str × Str)) :
    (st.namespace_exists ns = false →
      update_secret st ns group secret_name kv = [.printLine (nsNotFoundMsg ns)] ∧
      delete_secret st ns group secret_name = [.printLine (nsNotFoundMsg ns)]) ∧
    (st.namespace_exists ns = true →
      st.secret_exists ns (group ++ str "-" ++ secret_name) = false →
      update_secret st ns group secret_name kv =
        [.printLine (secretNotFoundMsg secret_name group)] ∧
      delete_secret st ns group secret_name =
        [.printLine (secretNotFoundMsg secret_name group)] ∧
      (update_secret st ns group secret_name kv).countP
        (fun e => e.isMutation) = 0 ∧
      (delete_secret st ns group secret_name).countP
        (fun e => e.isMutation) = 0) := by
  constructor
  · intro h
    constructor
    · simp [update_secret, h]
    · simp [delete_secret, h]
  · intro h1 h2
    have h2' : st.secret_exists ns
        (_create_complete_secret_name group secret_name) = false := h2
    refine ⟨?_, ?_, ?_, ?_⟩ <;>
      simp [update_secret, delete_secret, h1, h2', Effect.isMutation]

/-- Witness for C2 at a concrete store and inputs, both precondition
orders. -/
theorem C2_update_delete_guard_witness :
    (update_secret nsOnlyStore (str "ns") (str "g") (str "n")
        [(str "K", str "V")] =
      [.printLine (secretNotFoundMsg (str "n") (str "g"))] ∧
      delete_secret nsOnlyStore (str "ns") (str "g") (str "n") =
        [.printLine (secretNotFoundMsg (str "n") (str "g"))] ∧
      (update_secret nsOnlyStore (str "ns") (str "g") (str "n")
        [(str "K", str "V")]).countP (fun e => e.isMutation) = 0 ∧
      (delete_secret nsOnlyStore (str "ns") (str "g") (str "n")).countP
        (fun e => e.isMutation) = 0) ∧
    (update_secret emptyStore (str "ns") (str "g") (str "n")
        [(str "K", str "V")] = [.printLine (nsNotFoundMsg (str "ns"))] ∧
      delete_secret emptyStore (str "ns") (str "g") (str "n") =
        [.printLine (nsNotFoundMsg (str "ns"))]) :=
  ⟨(C2_update_delete_guard nsOnlyStore (str "ns") (str "g") (str "n")
      [(str "K", str "V")]).2 rfl rfl,
   (C2_update_delete_guard emptyStore (str "ns") (str "g") (str "n")
      [(str "K", str "V")]).1 rfl⟩

/-- Display never issues a mutating store call, on any path. -/
theorem display_secrets_no_mutation (st : Store) (ns : Str) (g n : Option Str) :
    ∀ e ∈ display_secrets st ns g n, e.isMutation = false := by
  intro e he
  unfold display_secrets at he
  split at he
  · simp at he; subst he; rfl
  · split at he
    · simp at he; subst he; rfl
    · rcases List.mem_cons.1 he with rfl | he2
      · rfl
      · split at he2
        · split at he2
          · rcases List.mem_cons.1 he2 with rfl | he3
            · rfl
            · obtain ⟨kv, _, rfl⟩ := List.mem_map.1 he3
              rfl
          · simp at he2
            rcases he2 with rfl | rfl <;> rfl
        · obtain ⟨l, hl, hel⟩ := List.mem_flatten.1 he2
          obtain ⟨p, _, rfl⟩ := List.mem_map.1 hl
          rcases List.mem_cons.1 hel with rfl | he3
          · rfl
          · obtain ⟨kv, _, rfl⟩ := List.mem_map.1 he3
            rfl

/-- C3: every not-found condition in the five entry points ends in a
normal return — the operation is a total function into an effect trace —
whose effects are at most the query already issued plus printed guidance,
never a mutating store call. The one fallible step, the dict subscript in
the named-display path, is caught and replaced by the cannot-find line
(the parser entry point has no not-found condition). -/
theorem C3_fail_soft (st : Store) (ns group secret_name : Str)
    (g n : Option Str) (kv : List (Str × Str)) :
    (st.namespace_exists ns = false →
      create_secret st ns group secret_name kv = [.printLine (nsNotFoundMsg ns)] ∧
      update_secret st ns group secret_name kv = [.printLine (nsNotFoundMsg ns)] ∧
      delete_secret st ns group secret_name = [.printLine (nsNotFoundMsg ns)] ∧
      display_secrets st ns g n = [.printLine (nsNotFoundMsg ns)]) ∧
    (st.namespace_exists ns = true →
      st.secret_exists ns (_create_complete_secret_name group secret_name) = false →
      update_secret st ns group secret_name kv =
        [.printLine (secretNotFoundMsg secret_name group)] ∧
      delete_secret st ns group secret_name =
        [.printLine (secretNotFoundMsg secret_name group)]) ∧
    (st.namespace_exists ns = true → pyTruthy n = true →
      display_secrets st ns none n = [.printLine guidanceMsg]) ∧
    (st.namespace_exists ns = true →
      dictLookup (st.list_secrets ns (some group))
        (_create_complete_secret_name group secret_name) = none →
      display_secrets st ns (some group) (some secret_name) =
        [.listSecretsCall ns (some group), .printLine (headerMsg secret_name),
         .printLine (cannotFindMsg secret_name ns)]) ∧
    (∀ e ∈ display_secrets st ns g n, e.isMutation = false) := by
  refine ⟨?_, ?_, ?_, ?_, display_secrets_no_mutation st ns g n⟩
  · intro h
    refine ⟨?_, ?_, ?_, ?_⟩ <;>
      simp [create_secret, update_secret, delete_secret, display_secrets, h]
  · intro h1 h2
    constructor
    · simp [update_secret, h1, h2]
    · simp [delete_secret, h1, h2]
  · intro h1 hn
    simp [display_secrets, h1, hn]
  · intro h1 hl
    have hl' : dictLookup (st.list_secrets ns (some group))
        (_create_complete_secret_name (pyOptStr (some group)) secret_name) =
        none := hl
    simp [display_secrets, h1, pyTruthy, hl']

/-- Witness for C3 at concrete stores and inputs, covering the four
hypothesis-guarded conjuncts. -/
theorem C3_fail_soft_witness :
    display_secrets emptyStore (str "ns") (some (str "g")) (some (str "n")) =
      [.printLine (nsNotFoundMsg (str "ns"))] ∧
    update_secret nsOnlyStore (str "ns") (str "g") (str "n") [] =
      [.printLine (secretNotFoundMsg (str "n") (str "g"))] ∧
    display_secrets nsOnlyStore (str "ns") none (some (str "n")) =
      [.printLine guidanceMsg] ∧
    display_secrets nsOnlyStore (str "ns") (some (str "g")) (some (str "n")) =
      [.listSecretsCall (str "ns") (some (str "g")),
       .printLine (headerMsg (str "n")),
       .printLine (cannotFindMsg (str "n") (str "ns"))] :=
  ⟨((C3_fail_soft emptyStore (str "ns") (str "g") (str "n") (some (str "g"))
      (some (str "n")) []).1 rfl).2.2.2,
   ((C3_fail_soft nsOnlyStore (str "ns") (str "g") (str "n") (some (str "g"))
      (some (str "n")) []).2.1 rfl rfl).1,
   (C3_fail_soft nsOnlyStore (str "ns") (str "g") (str "n") (some (str "g"))
      (some (str "n")) []).2.2.1 rfl rfl,
   (C3_fail_soft nsOnlyStore (str "ns") (str "g") (str "n") (some (str "g"))
      (some (str "n")) []).2.2.2.1 rfl rfl⟩

/-- C4 counterexample: Python's truthiness test `if secret_name and group
is None` treats the empty secret name as falsy, so with an existing
namespace, displaying secret name "" with no group skips the guidance
branch and queries the store; and with a missing namespace the
namespace-not-found line, not the guidance line, is printed. -/
theorem C4_display_guidance_cex :
    (Effect.listSecretsCall (str "ns") none ∈
        display_secrets nsOnlyStore (str "ns") none (some []) ∧
      Effect.printLine guidanceMsg ∉
        display_secrets nsOnlyStore (str "ns") none (some [])) ∧
    Effect.printLine guidanceMsg ∉
      display_secrets emptyStore (str "ns") none (some (str "n")) := by
  decide

/-- C4 amended: for every store, namespace and secret name, when the
namespace exists and the requested name is non-empty, display with the
name but no group prints exactly the guidance line — in particular it
issues no store query. -/
theorem C4_display_guidance (st : Store) (ns name : Str)
    (h1 : st.namespace_exists ns = true) (h2 : name ≠ []) :
    display_secrets st ns none (some name) = [.printLine guidanceMsg] := by
  have ht : pyTruthy (some name) = true := by
    simp [pyTruthy, List.isEmpty_iff, h2]
  simp [display_secrets, h1, ht]

/-- Witness for C4 at a concrete store and inputs. -/
theorem C4_display_guidance_witness :
    display_secrets nsOnlyStore (str "ns") none (some (str "n")) =
      [.printLine guidanceMsg] :=
  C4_display_guidance nsOnlyStore (str "ns") (str "n") rfl (by decide)

/-- C8: in the named-secret display path each payload pair is rendered as
one printed line `"-> " ++ key ++ "=" ++ value` with every newline
character removed before printing: the line is newline-free, a single
line of key=value shape. -/
theorem C8_display_strips_newlines (st : Store) (ns group nm : Str)
    (record : SecretRecord) (k v : Str)
    (h1 : st.namespace_exists ns = true)
    (h2 : dictLookup (st.list_secrets ns (some group))
        (_create_complete_secret_name group nm) = some record)
    (h3 : (k, v) ∈ record.data) :
    Effect.printLine (renderLine (k, v)) ∈
      display_secrets st ns (some group) (some nm) ∧
    renderLine (k, v) =
      str "-> " ++ k.filter (fun c => c != '\n') ++ str "=" ++
        v.filter (fun c => c != '\n') ∧
    '\n' ∉ renderLine (k, v) := by
  have h2' : dictLookup (st.list_secrets ns (some group))
      (_create_complete_secret_name (pyOptStr (some group)) nm) = some record := h2
  have hd : display_secrets st ns (some group) (some nm) =
      Effect.listSecretsCall ns (some group) ::
        Effect.printLine (headerMsg nm) ::
          record.data.map (fun kv => Effect.printLine (renderLine kv)) := by
    simp [display_secrets, h1, h2']
  refine ⟨?_, ?_, ?_⟩
  · rw [hd]
    exact List.mem_cons_of_mem _
      (List.mem_cons_of_mem _ (List.mem_map.2 ⟨(k, v), h3, rfl⟩))
  · have hA : (str "-> ").filter (fun c => c != '\n') = str "-> " := by decide
    have hB : (str "=").filter (fun c => c != '\n') = str "=" := by decide
    simp [renderLine, List.filter_append, hA, hB]
  · simp [renderLine, List.mem_filter]

/-- Witness for C8 at a concrete store whose single secret holds a value
with an embedded newline. -/
theorem C8_display_strips_newlines_witness :
    Effect.printLine (renderLine (str "K", str "V\nW")) ∈
      display_secrets oneSecretStore (str "ns") (some (str "g")) (some (str "n")) ∧
    renderLine (str "K", str "V\nW") =
      str "-> " ++ (str "K").filter (fun c => c != '\n') ++ str "=" ++
        (str "V\nW").filter (fun c => c != '\n') ∧
    '\n' ∉ renderLine (str "K", str "V\nW") :=
  C8_display_strips_newlines oneSecretStore (str "ns") (str "g") (str "n")
    (SecretRecord.mk (str "g") [(str "K", str "V\nW")]) (str "K") (str "V\nW")
    rfl (by decide) (by decide)

/-- C9: round trip through the composed identifier. When the namespace
exists, create emits the createSecret call under `g ++ "-" ++ n`; applying
that very call to the store and then displaying group `g`, name `n` in the
same namespace prints the payload pair (newline-stripped rendering in
general, literally `-> K=V` when the payload is newline-free), because the
write and read paths compose the identifier with the same function. -/
theorem C9_round_trip (st : StoreState) (ns g n K V : Str)
    (h1 : ns ∈ st.namespaces) :
    create_secret st.toStore ns g n [(K, V)] =
      [.createSecretCall ns (_create_complete_secret_name g n) g [(K, V)],
       .printLine (createdMsg n g)] ∧
    Effect.printLine (renderLine (K, V)) ∈
      display_secrets
        (st.applyCreate ns (_create_complete_secret_name g n) g [(K, V)]).toStore
        ns (some g) (some n) ∧
    ('\n' ∉ K → '\n' ∉ V →
      Effect.printLine (str "-> " ++ K ++ str "=" ++ V) ∈
        display_secrets
          (st.applyCreate ns (_create_complete_secret_name g n) g [(K, V)]).toStore
          ns (some g) (some n)) := by
  have hns : (st.applyCreate ns (_create_complete_secret_name g n) g
      [(K, V)]).toStore.namespace_exists ns = true := by
    simp [StoreState.applyCreate, StoreState.toStore, h1]
  have hlook : dictLookup
      ((st.applyCreate ns (_create_complete_secret_name g n) g
        [(K, V)]).toStore.list_secrets ns (some g))
      (_create_complete_secret_name g n) = some (SecretRecord.mk g [(K, V)]) := by
    simp [StoreState.applyCreate, StoreState.toStore, dictLookup]
  have hd : display_secrets
      (st.applyCreate ns (_create_complete_secret_name g n) g [(K, V)]).toStore
      ns (some g) (some n) =
      Effect.listSecretsCall ns (some g) ::
        Effect.printLine (headerMsg n) ::
          [Effect.printLine (renderLine (K, V))] := by
    simp [display_secrets, hns, pyOptStr, hlook]
  refine ⟨?_, ?_, ?_⟩
  · simp [create_secret, StoreState.toStore, h1]
  · rw [hd]
    exact List.mem_cons_of_mem _
      (List.mem_cons_of_mem _ (List.mem_cons_self _ _))
  · intro hK hV
    have hAll : ∀ c ∈ str "-> " ++ K ++ str "=" ++ V, (c != '\n') = true := by
      have hArr : ∀ x ∈ str "-> ", (x != '\n') = true := by decide
      have hEqs : ∀ x ∈ str "=", (x != '\n') = true := by decide
      intro c hc
      simp only [List.mem_append, List.append_assoc] at hc
      rcases hc with hc | hc | hc | hc
      · exact hArr c hc
      · exact bne_iff_ne.mpr (fun h => hK (h ▸ hc))
      · exact hEqs c hc
      · exact bne_iff_ne.mpr (fun h => hV (h ▸ hc))
    have hr : renderLine (K, V) = str "-> " ++ K ++ str "=" ++ V := by
      show (str "-> " ++ K ++ str "=" ++ V).filter (fun c => c != '\n') =
        str "-> " ++ K ++ str "=" ++ V
      exact List.filter_eq_self.2 hAll
    rw [hd, ← hr]
    exact List.mem_cons_of_mem _
      (List.mem_cons_of_mem _ (List.mem_cons_self _ _))

/-- Witness for C9 at a concrete one-namespace store state. -/
theorem C9_round_trip_witness :
    create_secret (StoreState.mk [str "ns"] []).toStore (str "ns") (str "g")
        (str "n") [(str "K", str "V")] =
      [.createSecretCall (str "ns")
        (_create_complete_secret_name (str "g") (str "n")) (str "g")
        [(str "K", str "V")],
       .printLine (createdMsg (str "n") (str "g"))] ∧
    Effect.printLine (renderLine (str "K", str "V")) ∈
      display_secrets
        ((StoreState.mk [str "ns"] []).applyCreate (str "ns")
          (_create_complete_secret_name (str "g") (str "n")) (str "g")
          [(str "K", str "V")]).toStore
        (str "ns") (some (str "g")) (some (str "n")) ∧
    ('\n' ∉ str "K" → '\n' ∉ str "V" →
      Effect.printLine (str "-> " ++ str "K" ++ str "=" ++ str "V") ∈
        display_secrets
          ((StoreState.mk [str "ns"] []).applyCreate (str "ns")
            (_create_complete_secret_name (str "g") (str "n")) (str "g")
            [(str "K", str "V")]).toStore
          (str "ns") (some (str "g")) (some (str "n"))) :=
  C9_round_trip (StoreState.mk [str "ns"] []) (str "ns") (str "g") (str "n")
    (str "K") (str "V") (by decide)

/-- The first-`=` decomposition of a string is unique. -/
theorem split_unique (k0 v0 k1 v1 : Str) (h : k0 ++ '=' :: v0 = k1 ++ '=' :: v1)
    (h0 : '=' ∉ k0) (h1 : '=' ∉ k1) : k0 = k1 ∧ v0 = v1 := by
  have e0 := findEq_append k0 v0 h0
  have e1 := findEq_append k1 v1 h1
  rw [h, e1, Option.some.injEq] at e0
  have hk : k0 = k1 := by
    have t0 := take_split k0 v0 '='
    have t1 := take_split k1 v1 '='
    rw [h, ← e0, t1] at t0
    exact t0.symm
  subst hk
  exact ⟨rfl, List.cons.inj (List.append_cancel_left h) |>.2⟩

/-- No first-`=` split with non-empty sides exists exactly when the string
has no `=`, or starts with `=` (empty key), or ends with its first `=`
(empty value). -/
theorem no_split_iff (s : Str) :
    (¬ ∃ k v, s = k ++ '=' :: v ∧ '=' ∉ k ∧ k ≠ [] ∧ v ≠ []) ↔
      ('=' ∉ s ∨ (∃ v, s = '=' :: v) ∨ (∃ k, '=' ∉ k ∧ s = k ++ ['='])) := by
  constructor
  · intro hno
    cases hf : findEq s with
    | none => exact Or.inl ((findEq_eq_none_iff s).1 hf)
    | some i =>
      obtain ⟨k0, v0, rfl, hk0, _⟩ := findEq_some_split s i hf
      rcases List.eq_nil_or_concat' k0 with rfl | hk  -- shape split on k0
      · exact Or.inr (Or.inl ⟨v0, rfl⟩)
      · by_cases hv : v0 = []
        · subst hv
          exact Or.inr (Or.inr ⟨k0, hk0, rfl⟩)
        · exact absurd ⟨k0, v0, rfl, hk0, by rintro rfl; simp at hk, hv⟩ hno
  · rintro (hne | ⟨v0, rfl⟩ | ⟨k0, hk0, rfl⟩) ⟨k, v, hs, hk, hknil, hvnil⟩
    · exact hne (hs ▸ List.mem_append.2 (Or.inr (List.mem_cons_self _ _)))
    · cases k with
      | nil => exact hknil rfl
      | cons c k2 =>
        have : c = '=' := by
          have := congrArg (fun l => l.headI) hs
          simpa using this.symm
        exact hk (this ▸ List.mem_cons_self c k2)
    · obtain ⟨-, hv⟩ := split_unique k0 [] k v hs hk0 hk
      exact hvnil hv.symm

/-- C5: the parser fails exactly when the input has no `=`, or the part
before the first `=` is empty, or the part after it is empty; otherwise it
returns the key/value split at the first `=` (the value may itself contain
`=`): "key=val=ue" parses to ("key", "val=ue"). -/
theorem C5_parsePair_contract (s : Str) :
    (∀ k v, _parse_secret_key_value_pair s = .ok (k, v) ↔
      (s = k ++ '=' :: v ∧ '=' ∉ k ∧ k ≠ [] ∧ v ≠ [])) ∧
    ((∃ e, _parse_secret_key_value_pair s = .error e) ↔
      ('=' ∉ s ∨ (∃ v, s = '=' :: v) ∨ (∃ k, '=' ∉ k ∧ s = k ++ ['=']))) ∧
    _parse_secret_key_value_pair (str "key=val=ue") =
      .ok (str "key", str "val=ue") := by
  refine ⟨fun k v => parsePair_ok_iff s k v, ?_, ?_⟩
  · rw [parsePair_error_iff s, no_split_iff s]
  · rfl

/-- C6: when every raw string parses, the mapping is built by inserting
each parsed pair in order with no duplicate-key error, the later duplicate
overwriting the earlier (each key looks up to the LAST parsed value
carrying it); ["a=1","b=2","a=3"] yields exactly {a: "3", b: "2"}. -/
theorem C6_parse_mapping_last_write_wins (ss : List Str)
    (h : ∀ s ∈ ss, ∃ p, _parse_secret_key_value_pair s = .ok p) :
    (∃ m, parse_cli_secrets_strings ss = .ok m ∧
      ∀ k, dictLookup m k = dictLookup (parsedPairs ss).reverse k) ∧
    parse_cli_secrets_strings [str "a=1", str "b=2", str "a=3"] =
      .ok [(str "a", str "3"), (str "b", str "2")] := by
  constructor
  · refine ⟨insertAll [] (parsedPairs ss), buildDict_ok ss [] h, fun k => ?_⟩
    rw [dictLookup_insertAll]
    cases dictLookup (parsedPairs ss).reverse k <;> simp [dictLookup, optOr]
  · rfl

/-- Witness for C6 at the spec's concrete input. -/
theorem C6_parse_mapping_witness :
    ∃ m, parse_cli_secrets_strings [str "a=1", str "b=2", str "a=3"] = .ok m ∧
      ∀ k, dictLookup m k =
        dictLookup (parsedPairs [str "a=1", str "b=2", str "a=3"]).reverse k :=
  (C6_parse_mapping_last_write_wins [str "a=1", str "b=2", str "a=3"]
    (by
      intro s hs
      simp only [List.mem_cons, List.not_mem_nil, or_false] at hs
      rcases hs with rfl | rfl | rfl
      · exact ⟨(str "a", str "1"), rfl⟩
      · exact ⟨(str "b", str "2"), rfl⟩
      · exact ⟨(str "a", str "3"), rfl⟩)).1

/-- Fail-fast helper: a malformed element makes `buildDict` fail with the
parser's own error, whatever the initial dict and whatever follows. -/
theorem buildDict_error (pre : List Str) (x : Str) (post : List Str) (e : String)
    (hx : _parse_secret_key_value_pair x = .error e) :
    ∀ m, (∀ s ∈ pre, ∃ p, _parse_secret_key_value_pair s = .ok p) →
      buildDict m (pre ++ x :: post) = .error e := by
  induction pre with
  | nil =>
    intro m _
    show buildDict m (x :: post) = .error e
    rw [buildDict, hx]
  | cons s rest ih =>
    intro m hpre
    obtain ⟨⟨k, v⟩, hp⟩ := hpre s (List.mem_cons_self s rest)
    show buildDict m (s :: (rest ++ x :: post)) = .error e
    rw [buildDict, hp]
    show buildDict (insertPair m k v) (rest ++ x :: post) = .error e
    exact ih _ (fun t ht => hpre t (List.mem_cons_of_mem _ ht))

/-- C7: on the first malformed entry the mapping parse fails with the very
error the pair parser raises there, unchanged; elements after it cannot
influence the result (the conclusion holds for every tail). -/
theorem C7_parse_mapping_fail_fast (pre post : List Str) (x : Str) (e : String)
    (hpre : ∀ s ∈ pre, ∃ p, _parse_secret_key_value_pair s = .ok p)
    (hx : _parse_secret_key_value_pair x = .error e) :
    parse_cli_secrets_strings (pre ++ x :: post) = .error e :=
  buildDict_error pre x post e hx [] hpre

/-- Witness for C7: a malformed middle element fails the whole parse with
the parser's error, the later malformed element never being reached. -/
theorem C7_parse_mapping_fail_fast_witness :
    parse_cli_secrets_strings [str "a=1", str "bad", str "=also"] =
      .error error_msg :=
  C7_parse_mapping_fail_fast [str "a=1"] [str "=also"] (str "bad") error_msg
    (by
      intro s hs
      simp only [List.mem_cons, List.not_mem_nil, or_false] at hs
      rcases hs with rfl
      exact ⟨(str "a", str "1"), rfl⟩)
    rfl

/-- C10: a successful parse is lossless and invertible: the key contains
no `=`, key and value are non-empty, and key ++ "=" ++ value reassembles
the raw input exactly. -/
theorem C10_parsePair_lossless (s k v : Str)
    (h : _parse_secret_key_value_pair s = .ok (k, v)) :
    '=' ∉ k ∧ k ≠ [] ∧ v ≠ [] ∧ k ++ '=' :: v = s := by
  obtain ⟨hs, hk, hknil, hvnil⟩ := (parsePair_ok_iff s k v).1 h
  exact ⟨hk, hknil, hvnil, hs.symm⟩

/-- Witness for C10 at the input "a=b". -/
theorem C10_parsePair_lossless_witness :
    '=' ∉ str "a" ∧ str "a" ≠ [] ∧ str "b" ≠ [] ∧
      str "a" ++ '=' :: str "b" = str "a=b" :=
  C10_parsePair_lossless (str "a=b") (str "a") (str "b") rfl

end BodyworkSecrets
